import Mathlib

/-!
Verification development for the indentation-marker rendering core of
`codemirror-indentation-markers` (`src/index.ts`).

The code under scrutiny is:
* `createGradient` — builds one CSS `repeating-linear-gradient` layer string
  with an explicit background position and size;
* `makeBackgroundCSS` — composes the per-line layer list from an indent-level
  descriptor (`IndentEntry`), the measured indent-unit pixel width, the
  `hideFirstIndent` flag and the stripe `thickness`;
* `IndentMarkersClass.update` — the regeneration guard comparing the memoized
  indent-unit width and cursor line against the new host state;
* `IndentMarkersClass.generate` — the two-phase measure/commit pipeline whose
  measure callback calibrates the indent-unit pixel width per line via
  `coordsAtPos` and whose commit callback installs the decoration set.

Numbers that the source manipulates as JavaScript numbers holding integers
(levels, columns, line numbers, document positions) are embedded as `Int`;
pixel quantities (measured widths, thickness, CSS lengths) as `Rat`.
-/

/-- The two marker CSS custom properties used by `createGradient`:
`--indent-marker-bg-color` (normal) and `--indent-marker-active-bg-color`
(active). -/
inductive MarkerColor where
  | normal
  | active
deriving DecidableEq, Repr

/-- One layer produced by `createGradient`.  The source returns the string

    `repeating-linear-gradient(to right, var(P) 0 Tpx, transparent Tpx W)
       calc(S * W + .5ch)/calc(W * C - 1px) no-repeat`

with `P` the marker property, `T` the thickness, `W` the indent width
(`indentWidth`, a pixel length), `S` the `startOffset` and `C` the `columns`
count.  The structure records the five arguments; the semantic fields of the
string (tile period, background position, background width) are recovered by
the functions below. -/
structure Gradient where
  color : MarkerColor
  thickness : Rat
  indentWidth : Rat
  startOffset : Int
  columns : Int
deriving DecidableEq, Repr

/-- `createGradient(markerCssProperty, thickness, indentWidth, startOffset,
columns)` from the source.  The returned CSS string is represented by the
`Gradient` record of its arguments. -/
def createGradient (color : MarkerColor) (thickness : Rat) (indentWidth : Rat)
    (startOffset : Int) (columns : Int) : Gradient :=
  ⟨color, thickness, indentWidth, startOffset, columns⟩

namespace Gradient

/-- Tile period of the repeating gradient: the stop list
`var(P) 0 Tpx, transparent Tpx W` repeats every `indentWidth` pixels. -/
def period (g : Gradient) : Rat := g.indentWidth

/-- Within one tile, the solid stripe occupies `[0, thickness)` and the
transparent fill `[thickness, period)`:
`x` (pixels into the tile) is on the solid stripe iff `0 ≤ x < thickness`. -/
def solidInTile (g : Gradient) (x : Rat) : Prop := 0 ≤ x ∧ x < g.thickness

/-- Pixel component of the background position
`calc(startOffset * indentWidth + .5ch)`. -/
def posPx (g : Gradient) : Rat := g.startOffset * g.indentWidth

/-- `ch` component of the background position
`calc(startOffset * indentWidth + .5ch)`. -/
def posCh (_g : Gradient) : Rat := 1/2

/-- Background width `calc(indentWidth * columns - 1px)`: the source comments
"Subtract one pixel from the background width to get rid of artifacts of
pixel rounding". -/
def widthPx (g : Gradient) : Rat := g.indentWidth * g.columns - 1

/-- Position of the stripe drawn for column `k` of the line (the stripe at
local index `k - startOffset` of this layer), measured from the line's start,
split into its pixel and `ch` components.  It is the background position plus
`(k - startOffset)` whole tile periods. -/
def stripePosOfColumn (g : Gradient) (k : Int) : Rat × Rat :=
  (g.posPx + (k - g.startOffset) * g.period, g.posCh)

/-- The set of columns this layer covers, as a decidable test: column `c` is
covered iff `startOffset ≤ c < startOffset + columns`. -/
def coversCol (g : Gradient) (c : Int) : Bool :=
  decide (g.startOffset ≤ c ∧ c < g.startOffset + g.columns)

end Gradient

/-- The shape of a `map.get(line.number)` entry as consumed by
`makeBackgroundCSS` via `const { level, active } = entry`: a nesting level and
an optional active-scope marker (`active !== undefined`). -/
structure IndentEntry where
  level : Int
  active : Option Int
deriving DecidableEq, Repr

/-- `makeBackgroundCSS(entry, indentWidth, hideFirstIndent, thickness)` from
the source, producing the ordered list of gradient layers that the source
joins with `,` into the final background string (`''` / the empty list when
`hideFirstIndent && level === 0`). -/
def makeBackgroundCSS (entry : IndentEntry) (indentWidth : Rat)
    (hideFirstIndent : Bool) (thickness : Rat) : List Gradient :=
  if hideFirstIndent ∧ entry.level = 0 then []
  else
    let startAt : Int := if hideFirstIndent then 1 else 0
    match entry.active with
    | some active =>
      let markersBeforeActive := active - startAt - 1
      (if markersBeforeActive > 0 then
        [createGradient .normal thickness indentWidth startAt markersBeforeActive]
      else []) ++
      [createGradient .active thickness indentWidth (active - 1) 1] ++
      (if active ≠ entry.level then
        [createGradient .normal thickness indentWidth active (entry.level - active)]
      else [])
    | none =>
      [createGradient .normal thickness indentWidth startAt (entry.level - startAt)]

/-- Column `c` is covered by some layer of the list. -/
def coversAny (gs : List Gradient) (c : Int) : Bool :=
  gs.any (fun g => g.coversCol c)

/-- The layers of a list cover pairwise disjoint column ranges: no column is
covered by more than one layer (the active column is never double-drawn). -/
def disjointLayers (gs : List Gradient) : Prop :=
  ∀ c : Int, gs.countP (fun g => g.coversCol c) ≤ 1

/-- A visible line as consumed by `generate`: `line.number`, `line.from` (the
document position of the line start, named `fromPos` here because `from` is a
Lean keyword) and `line.text` (the JavaScript string embedded as its
character sequence). -/
structure Line where
  number : Int
  fromPos : Int
  text : List Char
deriving DecidableEq, Repr

/-- JavaScript's `text.startsWith(pre)`: `pre` is a literal prefix of
`text`. -/
def startsWith (text pre : List Char) : Bool :=
  pre.isPrefixOf text

/-- The width calibration of `generate`'s measure callback:

    const width =
      (this.view.coordsAtPos(line.from + indentUnitString.length)?.left ?? 0) -
      (this.view.coordsAtPos(line.from)?.left ?? 0);

`coords` is the host's `coordsAtPos` restricted to the `left` coordinate,
returning `none` when the host cannot resolve the position. -/
def measureWidth (coords : Int → Option Rat) (lineFrom : Int)
    (indentUnitLength : Int) : Rat :=
  (coords (lineFrom + indentUnitLength)).getD 0 - (coords lineFrom).getD 0

namespace IndentMarkersClass

/-- The loop body of `generate`'s measure (`read`) callback: for each visible
line, skip it when the map has no entry or the entry's level is `0`
(`!entry?.level`), skip it when its text does not literally start with the
configured indent-unit string, and otherwise calibrate the pixel width and
compose the line's background layers.  Returns the `(line, backgrounds)`
pairs handed to `addBackground`, in line order. -/
def generateRead (lines : List Line) (map : Int → Option IndentEntry)
    (indentUnitString : List Char) (coords : Int → Option Rat)
    (hideFirstIndent : Bool) (thickness : Rat) :
    List (Line × List Gradient) :=
  lines.filterMap fun line =>
    match map line.number with
    | none => none
    | some entry =>
      if entry.level = 0 then none
      else if startsWith line.text indentUnitString then
        let width := measureWidth coords line.fromPos (indentUnitString.length : Int)
        some (line, makeBackgroundCSS entry width hideFirstIndent thickness)
      else none

/-- Host-visible effects of `generate`'s two `requestMeasure` callbacks. -/
inductive HostEffect where
  | layoutQuery (pos : Int)
  | setDecorations
  | focusView
deriving DecidableEq, Repr

/-- Effect trace of the measure (`read`) callback: every line that reaches the
width calibration issues the two `coordsAtPos` layout queries; nothing else
touches the host. -/
def readPhaseEffects (lines : List Line) (map : Int → Option IndentEntry)
    (indentUnitString : List Char) : List HostEffect :=
  lines.flatMap fun line =>
    match map line.number with
    | none => []
    | some entry =>
      if entry.level = 0 then []
      else if startsWith line.text indentUnitString then
        [HostEffect.layoutQuery (line.fromPos + (indentUnitString.length : Int)),
         HostEffect.layoutQuery line.fromPos]
      else []

/-- Effect trace of the commit (`write`) callback:

    this.decorations = builder.finish();
    // Schedule an update. I'm not sure how to do this properly.
    this.view.focus();

It installs the new decoration set and then focuses the view. -/
def writePhaseEffects : List HostEffect :=
  [HostEffect.setDecorations, HostEffect.focusView]

/-- The plugin's cross-cycle state: the two memoized scalars (`unitWidth`,
`currentLineNumber`) and the current decoration set, here represented by the
`(line, backgrounds)` pairs it decorates. -/
structure PluginState where
  unitWidth : Int
  currentLineNumber : Int
  decorations : List (Line × List Gradient)
deriving Repr

/-- The host-state snapshot that `update(update: ViewUpdate)` inspects:
`update.docChanged`, `update.viewportChanged`, `getIndentUnit(update.state)`,
`getCurrentLine(update.state).number`, and
`update.state.facet(indentationMarkerConfig).highlightActiveBlock`. -/
structure ViewUpdateEvent where
  docChanged : Bool
  viewportChanged : Bool
  stateUnitWidth : Int
  stateCursorLine : Int
  highlightActiveBlock : Bool
deriving Repr

/-- `IndentMarkersClass.update` from the source: refresh the memoized scalars,
then call `generate` exactly when the guard condition fires.  `generate`'s
eventual effect on the decoration set (installed by the commit callback) is
abstracted as `newDecorations`; the returned `Bool` records whether
`this.generate(update.state)` was invoked. -/
def update (s : PluginState) (u : ViewUpdateEvent)
    (newDecorations : List (Line × List Gradient)) : PluginState × Bool :=
  let unitWidthChanged := u.stateUnitWidth != s.unitWidth
  let s := if unitWidthChanged then { s with unitWidth := u.stateUnitWidth } else s
  let lineNumberChanged := u.stateCursorLine != s.currentLineNumber
  let s := { s with currentLineNumber := u.stateCursorLine }
  let activeBlockUpdateRequired := u.highlightActiveBlock && lineNumberChanged
  if u.docChanged || u.viewportChanged || unitWidthChanged || activeBlockUpdateRequired then
    ({ s with decorations := newDecorations }, true)
  else
    (s, false)

end IndentMarkersClass

/-- Unfolding of `makeBackgroundCSS` on a descriptor with `active` present,
mirroring the source's three pushes and their guards. -/
theorem makeBackgroundCSS_active_eq (entry : IndentEntry) (w t : Rat) (hide : Bool)
    (a : Int) (ha : entry.active = some a) (h : ¬(hide = true ∧ entry.level = 0)) :
    makeBackgroundCSS entry w hide t =
      (if 0 < a - (if hide then (1:Int) else 0) - 1 then
        [createGradient .normal t w (if hide then 1 else 0)
          (a - (if hide then 1 else 0) - 1)]
       else []) ++
      [createGradient .active t w (a - 1) 1] ++
      (if a ≠ entry.level then
        [createGradient .normal t w a (entry.level - a)]
       else []) := by
  simp only [makeBackgroundCSS, ha, if_neg h]

/-- Unfolding of `makeBackgroundCSS` on a descriptor with `active` absent. -/
theorem makeBackgroundCSS_none_eq (entry : IndentEntry) (w t : Rat) (hide : Bool)
    (ha : entry.active = none) :
    makeBackgroundCSS entry w hide t =
      if hide = true ∧ entry.level = 0 then []
      else [createGradient .normal t w (if hide then 1 else 0)
        (entry.level - (if hide then 1 else 0))] := by
  by_cases h : hide = true ∧ entry.level = 0
  · simp only [makeBackgroundCSS, ha, if_pos h]
  · simp only [makeBackgroundCSS, ha, if_neg h]

/-- C1: for a descriptor with `active` present (`1 ≤ active ≤ level`),
`makeBackgroundCSS` emits, in column order: a normal layer starting at
`startAt` of `active - startAt - 1` columns only when that count is positive,
then the single-column active layer at column `active - 1`, then a normal
layer at `active` of `level - active` columns only when `active < level`,
where `startAt = hideOutermost ? 1 : 0`. -/
theorem claim_C1 (entry : IndentEntry) (w t : Rat) (hide : Bool) (a : Int)
    (ha : entry.active = some a) (h1 : 1 ≤ a) (h2 : a ≤ entry.level) :
    makeBackgroundCSS entry w hide t =
      (if 0 < a - (if hide then (1:Int) else 0) - 1 then
        [createGradient .normal t w (if hide then 1 else 0)
          (a - (if hide then 1 else 0) - 1)]
       else []) ++
      [createGradient .active t w (a - 1) 1] ++
      (if a < entry.level then
        [createGradient .normal t w a (entry.level - a)]
       else []) := by
  have h : ¬(hide = true ∧ entry.level = 0) := by rintro ⟨_, h0⟩; omega
  rw [makeBackgroundCSS_active_eq entry w t hide a ha h]
  congr 1
  by_cases hae : a = entry.level
  · simp [hae]
  · have hlt : a < entry.level := lt_of_le_of_ne h2 hae
    simp [hae, hlt]

theorem claim_C1_witness :
    (⟨3, some 2⟩ : IndentEntry).active = some 2 ∧ (1:Int) ≤ 2 ∧ (2:Int) ≤ 3 ∧
    makeBackgroundCSS ⟨3, some 2⟩ 8 false 2 =
      [createGradient .normal 2 8 0 1, createGradient .active 2 8 1 1,
       createGradient .normal 2 8 2 1] := by
  refine ⟨rfl, by decide, by decide, ?_⟩
  have h := claim_C1 ⟨3, some 2⟩ 8 2 false 2 rfl (by decide) (by decide)
  simpa using h

/-- C4: `makeBackgroundCSS` returns the empty pattern exactly when
`hideFirstIndent` is set and the level is `0`; every other input yields a
non-empty layer list. -/
theorem claim_C4 (entry : IndentEntry) (w t : Rat) (hide : Bool) :
    makeBackgroundCSS entry w hide t = [] ↔ hide = true ∧ entry.level = 0 := by
  by_cases h : hide = true ∧ entry.level = 0
  · obtain ⟨hh, h0⟩ := h
    simp [makeBackgroundCSS, hh, h0]
  · cases hact : entry.active with
    | some a =>
      rw [makeBackgroundCSS_active_eq entry w t hide a hact h]
      simp [h]
    | none =>
      rw [makeBackgroundCSS_none_eq entry w t hide hact, if_neg h]
      simp [h]

/-- C10: whenever `active` is defined and in `[1, level]`, the composed list
contains the active-colored single-column layer at column `active - 1` and is
in particular never empty — even with `hideOutermost` set and `active = 1`,
where that layer sits at column `0`, the column `hideOutermost` suppresses
for normal markers. -/
theorem claim_C10 (entry : IndentEntry) (w t : Rat) (hide : Bool) (a : Int)
    (ha : entry.active = some a) (h1 : 1 ≤ a) (h2 : a ≤ entry.level) :
    createGradient .active t w (a - 1) 1 ∈ makeBackgroundCSS entry w hide t ∧
    makeBackgroundCSS entry w hide t ≠ [] := by
  have h : ¬(hide = true ∧ entry.level = 0) := by rintro ⟨_, h0⟩; omega
  rw [makeBackgroundCSS_active_eq entry w t hide a ha h]
  constructor
  · simp
  · simp

theorem claim_C10_witness :
    (⟨1, some 1⟩ : IndentEntry).active = some 1 ∧ (1:Int) ≤ 1 ∧ (1:Int) ≤ 1 ∧
    (createGradient .active 2 8 0 1 ∈ makeBackgroundCSS ⟨1, some 1⟩ 8 true 2 ∧
     makeBackgroundCSS ⟨1, some 1⟩ 8 true 2 ≠ []) := by
  refine ⟨rfl, by decide, by decide, ?_⟩
  have h := claim_C10 ⟨1, some 1⟩ 8 2 true 1 rfl (by decide) (by decide)
  simpa using h

/-- C3 counterexample: with `active` absent, `level = 0` and
`hideOutermost = false`, the claim demands an empty layer list, but the code
pushes one (degenerate) normal layer unconditionally. -/
theorem claim_C3_counterexample :
    makeBackgroundCSS ⟨0, none⟩ 8 false 2 ≠ [] := by decide

/-- C3 amended: with `active` absent, `makeBackgroundCSS` emits exactly one
normal layer `(startAt, level - startAt)` (none at all only under the
`hideFirstIndent && level == 0` short-circuit); when `level - startAt ≤ 0`
that layer is still emitted but is degenerate — it covers no column. -/
theorem claim_C3_amended (entry : IndentEntry) (w t : Rat) (hide : Bool)
    (ha : entry.active = none) :
    makeBackgroundCSS entry w hide t =
      (if hide = true ∧ entry.level = 0 then []
       else [createGradient .normal t w (if hide then 1 else 0)
         (entry.level - (if hide then 1 else 0))]) ∧
    (entry.level - (if hide then (1:Int) else 0) ≤ 0 →
      ∀ c : Int, coversAny (makeBackgroundCSS entry w hide t) c = false) := by
  refine ⟨makeBackgroundCSS_none_eq entry w t hide ha, ?_⟩
  intro hle c
  rw [makeBackgroundCSS_none_eq entry w t hide ha]
  by_cases h : hide = true ∧ entry.level = 0
  · simp [h, coversAny]
  · rw [if_neg h]
    simp only [coversAny, List.any_cons, List.any_nil, Bool.or_false,
      Gradient.coversCol, createGradient, decide_eq_false_iff_not]
    cases hide <;> simp_all <;> omega

theorem claim_C3_amended_witness :
    (⟨0, none⟩ : IndentEntry).active = none ∧
    makeBackgroundCSS ⟨0, none⟩ 8 false 2 = [createGradient .normal 2 8 0 0] ∧
    coversAny (makeBackgroundCSS ⟨0, none⟩ 8 false 2) 0 = false := by
  have h := claim_C3_amended ⟨0, none⟩ 8 2 false rfl
  refine ⟨rfl, ?_, h.2 (by decide) 0⟩
  rw [h.1]
  decide

/-- C2 counterexample: for the descriptor `level = 1, active = 1` with
`hideOutermost = true` (`startAt = 1`), the composed layers cover column `0`,
which lies outside the claimed union `[startAt, level) = [1, 1) = ∅`. -/
theorem claim_C2_counterexample :
    coversAny (makeBackgroundCSS ⟨1, some 1⟩ 8 true 2) 0 = true ∧
    ¬((1:Int) ≤ 0 ∧ (0:Int) < 1) := by decide

/-- C2 amended: the layers are always pairwise disjoint, and their union is
`[startAt, level)` together with the active column `active - 1` when `active`
is present — which coincides with `[startAt, level)` except when
`hideOutermost` holds and `active = 1`, where the active column `0` lies
outside `[startAt, level)`. -/
theorem claim_C2_amended (entry : IndentEntry) (w t : Rat) (hide : Bool)
    (hA : entry.active = none ∨
      ∃ a, entry.active = some a ∧ 1 ≤ a ∧ a ≤ entry.level)
    (_h0 : 0 ≤ entry.level) :
    disjointLayers (makeBackgroundCSS entry w hide t) ∧
    (∀ c : Int,
      coversAny (makeBackgroundCSS entry w hide t) c = true ↔
        (((if hide then (1:Int) else 0) ≤ c ∧ c < entry.level) ∨
         ∃ a, entry.active = some a ∧ c = a - 1)) := by
  rcases hA with hnone | ⟨a, ha, h1, h2⟩
  · rw [makeBackgroundCSS_none_eq entry w t hide hnone]
    refine ⟨?_, ?_⟩
    · intro c
      split_ifs <;>
        simp [List.countP_cons, Gradient.coversCol, createGradient] <;>
        split_ifs <;> omega
    · intro c
      split_ifs <;>
        simp [coversAny, Gradient.coversCol, createGradient, hnone] <;>
        omega
  · have hne : ¬(hide = true ∧ entry.level = 0) := by rintro ⟨_, hz⟩; omega
    rw [makeBackgroundCSS_active_eq entry w t hide a ha hne]
    refine ⟨?_, ?_⟩
    · intro c
      split_ifs <;>
        simp only [List.countP_append, List.countP_cons, List.countP_nil,
          Gradient.coversCol, createGradient, Bool.and_eq_true,
          decide_eq_true_eq, Nat.add_zero, Nat.zero_add] <;>
        split_ifs <;> omega
    · intro c
      split_ifs <;>
        simp [coversAny, Gradient.coversCol, createGradient, ha] <;>
        omega

/-- C5: `IndentMarkersClass.update` regenerates the decoration pipeline
exactly when the document changed, the viewport changed, the indent-unit
width changed, or active-block highlighting is enabled and the cursor line
number changed; otherwise the decoration set is left untouched. -/
theorem claim_C5 (s : IndentMarkersClass.PluginState)
    (u : IndentMarkersClass.ViewUpdateEvent)
    (newDecorations : List (Line × List Gradient)) :
    ((IndentMarkersClass.update s u newDecorations).2 = true ↔
      (u.docChanged = true ∨ u.viewportChanged = true ∨
       u.stateUnitWidth ≠ s.unitWidth ∨
       (u.highlightActiveBlock = true ∧
        u.stateCursorLine ≠ s.currentLineNumber))) ∧
    (IndentMarkersClass.update s u newDecorations).1.decorations =
      (if (IndentMarkersClass.update s u newDecorations).2 = true then
        newDecorations
       else s.decorations) := by
  by_cases hw : u.stateUnitWidth = s.unitWidth <;>
  by_cases hd : u.docChanged = true <;>
  by_cases hv : u.viewportChanged = true <;>
  by_cases hh : u.highlightActiveBlock = true <;>
  by_cases hl : u.stateCursorLine = s.currentLineNumber <;>
    simp_all [IndentMarkersClass.update]

/-- C6: a visible line whose text does not start with the configured
indent-unit string is excluded from the decorated set produced by the
measure pass: no `(line, backgrounds)` pair is emitted for it. -/
theorem claim_C6 (lines : List Line) (map : Int → Option IndentEntry)
    (indentUnitString : List Char) (coords : Int → Option Rat)
    (hide : Bool) (t : Rat) (l : Line) (_hl : l ∈ lines)
    (hs : startsWith l.text indentUnitString = false) :
    l ∉ (IndentMarkersClass.generateRead lines map indentUnitString coords
      hide t).map Prod.fst := by
  intro hmem
  simp only [List.mem_map] at hmem
  obtain ⟨p, hp, hfst⟩ := hmem
  simp only [IndentMarkersClass.generateRead, List.mem_filterMap] at hp
  obtain ⟨line, hline, hf⟩ := hp
  cases hmap : map line.number with
  | none => rw [hmap] at hf; exact Option.noConfusion hf
  | some entry =>
    rw [hmap] at hf
    dsimp only at hf
    by_cases h0 : entry.level = 0
    · rw [if_pos h0] at hf; exact Option.noConfusion hf
    · rw [if_neg h0] at hf
      by_cases hsw : startsWith line.text indentUnitString = true
      · rw [if_pos hsw] at hf
        simp only [Option.some.injEq] at hf
        have hpl : p.1 = line := by rw [← hf]
        rw [hpl] at hfst
        rw [hfst] at hsw
        rw [hs] at hsw
        exact Bool.false_ne_true hsw
      · rw [if_neg hsw] at hf; exact Option.noConfusion hf

theorem claim_C6_witness :
    (⟨2, 0, ['\t', 'x']⟩ : Line) ∈ [(⟨2, 0, ['\t', 'x']⟩ : Line)] ∧
    startsWith ['\t', 'x'] [' ', ' '] = false ∧
    (⟨2, 0, ['\t', 'x']⟩ : Line) ∉
      (IndentMarkersClass.generateRead [⟨2, 0, ['\t', 'x']⟩]
        (fun _ => some ⟨1, none⟩) [' ', ' '] (fun _ => some 8) false 2).map
        Prod.fst := by
  refine ⟨by decide, by decide, ?_⟩
  exact claim_C6 [⟨2, 0, ['\t', 'x']⟩] (fun _ => some ⟨1, none⟩) [' ', ' ']
    (fun _ => some 8) false 2 ⟨2, 0, ['\t', 'x']⟩ (by decide) (by decide)

/-- Which lines the measure pass decorates does not depend on the coordinate
oracle: an unresolved coordinate degrades a single line's measured width but
never drops a line or aborts the pass. -/
theorem generateRead_fst_indep (lines : List Line)
    (map : Int → Option IndentEntry) (u : List Char) (hide : Bool) (t : Rat)
    (coords coordsB : Int → Option Rat) :
    (IndentMarkersClass.generateRead lines map u coords hide t).map Prod.fst =
    (IndentMarkersClass.generateRead lines map u coordsB hide t).map
      Prod.fst := by
  simp only [IndentMarkersClass.generateRead, List.map_filterMap]
  apply List.filterMap_congr
  intro a _
  cases map a.number with
  | none => rfl
  | some entry =>
    dsimp only
    by_cases h0 : entry.level = 0
    · rw [if_pos h0, if_pos h0]
    · rw [if_neg h0, if_neg h0]
      by_cases hsw : startsWith a.text u = true
      · rw [if_pos hsw, if_pos hsw]
        rfl
      · rw [if_neg hsw, if_neg hsw]

/-- C7 counterexample: when only the line-start coordinate query is
unresolved and the after-one-indent-unit query resolves to `10`, the measured
width is `10`, not the claimed `0`. -/
theorem claim_C7_counterexample :
    measureWidth (fun p => if p = 5 then some 10 else none) 0 5 = 10 ∧
    (10 : Rat) ≠ 0 := by
  refine ⟨?_, by norm_num⟩
  simp [measureWidth]

/-- C7 amended: an unresolved coordinate query contributes `0` to its term of
the subtraction, so the width degenerates to `0` when both queries are
unresolved; when exactly one resolves, the width is that coordinate (negated
when it is the line-start query).  The choice of coordinate oracle never
changes which lines are processed, so the degradation affects only the
affected line's width and aborts nothing. -/
theorem claim_C7_amended (coords : Int → Option Rat) (lineFrom len : Int) :
    (coords lineFrom = none → coords (lineFrom + len) = none →
      measureWidth coords lineFrom len = 0) ∧
    (∀ b, coords lineFrom = none → coords (lineFrom + len) = some b →
      measureWidth coords lineFrom len = b) ∧
    (∀ a, coords lineFrom = some a → coords (lineFrom + len) = none →
      measureWidth coords lineFrom len = -a) ∧
    (∀ (lines : List Line) (map : Int → Option IndentEntry) (u : List Char)
        (hide : Bool) (t : Rat) (coordsB : Int → Option Rat),
      (IndentMarkersClass.generateRead lines map u coords hide t).map
        Prod.fst =
      (IndentMarkersClass.generateRead lines map u coordsB hide t).map
        Prod.fst) := by
  refine ⟨?_, ?_, ?_, ?_⟩
  · intro h1 h2; simp [measureWidth, h1, h2]
  · intro b h1 h2; simp [measureWidth, h1, h2]
  · intro a h1 h2; simp [measureWidth, h1, h2]
  · intro lines map u hide t coordsB
    exact generateRead_fst_indep lines map u hide t coords coordsB

theorem claim_C7_amended_witness :
    ((fun _ : Int => (none : Option Rat)) 0 = none) ∧
    measureWidth (fun _ => none) 0 5 = 0 := by
  have h := claim_C7_amended (fun _ => (none : Option Rat)) 0 5
  exact ⟨rfl, h.1 rfl rfl⟩

/-- C8 counterexample: the background position carries an extra half-character
(`.5ch`) term, so a stripe never sits exactly at `k · indentUnitPixelWidth`
from the line's start: the `ch` component of the anchor is `1/2`, not `0`. -/
theorem claim_C8_counterexample :
    ((createGradient .normal 2 8 0 1).stripePosOfColumn 0).2 = 1/2 ∧
    ((1 : Rat)/2) ≠ 0 := by
  refine ⟨rfl, by norm_num⟩

/-- C8 amended: each layer is a `thickness`-wide solid stripe followed by
transparent fill tiled with period `indentUnitPixelWidth`, anchored so that
the stripe of column `k` sits at `k · indentUnitPixelWidth` plus a fixed
half-character (`.5ch`) offset from the line's start, and the covered span's
width is `indentUnitPixelWidth · columns` minus exactly one CSS pixel. -/
theorem claim_C8_amended (color : MarkerColor) (t w : Rat) (s c k : Int) :
    (createGradient color t w s c).period = w ∧
    (∀ x : Rat, (createGradient color t w s c).solidInTile x ↔
      0 ≤ x ∧ x < t) ∧
    (createGradient color t w s c).stripePosOfColumn k =
      ((k : Rat) * w, 1/2) ∧
    (createGradient color t w s c).widthPx = w * (c : Rat) - 1 := by
  refine ⟨rfl, fun x => Iff.rfl, ?_, rfl⟩
  simp only [Gradient.stripePosOfColumn, Gradient.posPx, Gradient.posCh,
    Gradient.period, createGradient, Prod.mk.injEq]
  constructor
  · ring
  · trivial

/-- C9 counterexample: the commit (`write`) callback does not only replace
the decoration set — it also calls `this.view.focus()`, a host-state mutation
beyond replacing the decoration set. -/
theorem claim_C9_counterexample :
    IndentMarkersClass.HostEffect.focusView ∈
      IndentMarkersClass.writePhaseEffects ∧
    IndentMarkersClass.HostEffect.focusView ≠
      IndentMarkersClass.HostEffect.setDecorations := by
  decide

/-- C9 amended: the measure phase touches the host only through layout
queries (it builds the decorations locally and mutates no rendering state),
and the commit phase performs no layout query; but the commit phase is not
limited to replacing the decoration set — it installs the new decorations
and then focuses the view (the source's workaround to schedule an update). -/
theorem claim_C9_amended (lines : List Line) (map : Int → Option IndentEntry)
    (u : List Char) :
    (∀ e ∈ IndentMarkersClass.readPhaseEffects lines map u,
      ∃ p, e = IndentMarkersClass.HostEffect.layoutQuery p) ∧
    IndentMarkersClass.writePhaseEffects =
      [IndentMarkersClass.HostEffect.setDecorations,
       IndentMarkersClass.HostEffect.focusView] ∧
    ∀ p : Int, IndentMarkersClass.HostEffect.layoutQuery p ∉
      IndentMarkersClass.writePhaseEffects := by
  refine ⟨?_, rfl, ?_⟩
  · intro e he
    simp only [IndentMarkersClass.readPhaseEffects, List.mem_flatMap] at he
    obtain ⟨line, _, he⟩ := he
    cases hmap : map line.number with
    | none => rw [hmap] at he; exact absurd he (List.not_mem_nil e)
    | some entry =>
      rw [hmap] at he
      dsimp only at he
      by_cases h0 : entry.level = 0
      · rw [if_pos h0] at he; exact absurd he (List.not_mem_nil e)
      · rw [if_neg h0] at he
        by_cases hsw : startsWith line.text u = true
        · rw [if_pos hsw] at he
          simp only [List.mem_cons, List.not_mem_nil, or_false] at he
          rcases he with he | he
          · exact ⟨_, he⟩
          · exact ⟨_, he⟩
        · rw [if_neg hsw] at he; exact absurd he (List.not_mem_nil e)
  · intro p
    simp [IndentMarkersClass.writePhaseEffects]

theorem claim_C9_amended_witness :
    IndentMarkersClass.HostEffect.layoutQuery 0 ∈
      IndentMarkersClass.readPhaseEffects [⟨1, 0, [' ', ' ', 'x']⟩]
        (fun _ => some ⟨1, none⟩) [' ', ' '] ∧
    (∃ p, IndentMarkersClass.HostEffect.layoutQuery 0 =
      IndentMarkersClass.HostEffect.layoutQuery p) ∧
    IndentMarkersClass.HostEffect.layoutQuery 0 ∉
      IndentMarkersClass.writePhaseEffects := by
  have h := claim_C9_amended [⟨1, 0, [' ', ' ', 'x']⟩]
    (fun _ => some ⟨1, none⟩) [' ', ' ']
  exact ⟨by decide, h.1 _ (by decide), h.2.2 0⟩

theorem claim_C2_amended_witness :
    ((⟨1, some 1⟩ : IndentEntry).active = none ∨
      ∃ a, (⟨1, some 1⟩ : IndentEntry).active = some a ∧ 1 ≤ a ∧
        a ≤ (⟨1, some 1⟩ : IndentEntry).level) ∧
    (0 : Int) ≤ (⟨1, some 1⟩ : IndentEntry).level ∧
    disjointLayers (makeBackgroundCSS ⟨1, some 1⟩ 8 true 2) ∧
    (coversAny (makeBackgroundCSS ⟨1, some 1⟩ 8 true 2) 0 = true ↔
      (((1 : Int) ≤ 0 ∧ (0 : Int) < 1) ∨
       ∃ a, (⟨1, some 1⟩ : IndentEntry).active = some a ∧
         (0 : Int) = a - 1)) := by
  have h := claim_C2_amended ⟨1, some 1⟩ 8 2 true
    (Or.inr ⟨1, rfl, by decide, by decide⟩) (by decide)
  exact ⟨Or.inr ⟨1, rfl, by decide, by decide⟩, by decide, h.1, by simpa using h.2 0⟩
